import Mathlib

/-!
Shallow embedding of the mvisor `DeviceManager` core
(`src/mvisor/core/device_manager.cc`): the PIO/MMIO handler tables with
their move-to-front dispatch, the GSI routing-table mirror with
`SetupGsiRoutingTable` / `AddMsiRoute` / `UpdateMsiRoute`, and the
io-event registry.  Devices are identified by opaque numeric ids; the
effect of a dispatched access on the owning device is recorded as a
trace of `DeviceOp`s (the dispatcher itself never touches guest data on
the matched path), kernel ioctls that cannot fail observably are
elided, and `MV_PANIC` is an `Except.error` outcome.
-/

namespace Mvisor

/-- `IoResourceType` from the source: PIO, MMIO or RAM resource. -/
inductive IoResourceType where
  | pio
  | mmio
  | ram
deriving DecidableEq, Repr

/-- An `IoResource`: the claimed range `[base, base+length)`.  `base` and
`length` are `uint64_t` in the source, embedded as `Nat` with arithmetic
reduced mod `2^64` where the C++ computation can wrap. -/
structure IoResource where
  rtype : IoResourceType
  base : Nat
  length : Nat
deriving DecidableEq, Repr

/-- An `IoHandler` entry of `pio_handlers_` / `mmio_handlers_`: the
resource and the owning device (by id; `memory_region` is irrelevant to
dispatch and omitted). -/
structure IoHandler where
  resource : IoResource
  device : Nat
deriving DecidableEq, Repr

/-- The range test of the dispatch loops:
`address >= resource->base && address < resource->base + resource->length`,
with the sum taken as `uint64_t` (mod `2^64`). -/
def handlerMatch (addr : Nat) (h : IoHandler) : Bool :=
  decide (h.resource.base ≤ addr) &&
  decide (addr < (h.resource.base + h.resource.length) % 2 ^ 64)

/-- The scan of `HandleIo`/`HandleMmio`: walk the handler table in order
and return the first matching entry together with its index
(`it_count` in the source). -/
def scanHandlers (addr : Nat) : List IoHandler → Option (Nat × IoHandler)
  | [] => none
  | h :: t =>
    if handlerMatch addr h then some (0, h)
    else (scanHandlers addr t).map (fun p => (p.1 + 1, p.2))

/-- The move-to-front step: when the matched entry sat at index
`it_count >= 3`, `push_front` it and erase the original occurrence;
otherwise the table is left alone. -/
def promote (table : List IoHandler) (i : Nat) (h : IoHandler) : List IoHandler :=
  if 3 ≤ i then h :: table.eraseIdx i else table

/-- One recorded invocation of a device's `Read` or `Write` by the
dispatcher: the direction, the owning device, the resource's base, the
byte offset `address - resource->base`, the offset of the buffer
pointer from the start of `data`, and the access size. -/
structure DeviceOp where
  isWrite : Bool
  device : Nat
  base : Nat
  offset : Nat
  bufOffset : Nat
  size : Nat
deriving DecidableEq, Repr

/-- Outcome of a dispatch: the (possibly promoted) handler table, the
guest data buffer as the dispatcher itself leaves it, and the trace of
device invocations. -/
structure DispatchResult where
  table : List IoHandler
  data : List Nat
  ops : List DeviceOp
deriving DecidableEq, Repr

/-- `memset(data, 0xFF, size)` on a byte buffer. -/
def memsetFF (data : List Nat) (size : Nat) : List Nat :=
  (data.take size).map (fun _ => 0xFF) ++ data.drop size

/-- `DeviceManager::HandleIo(port, data, size, is_write, count, ioeventfd)`:
scan `pio_handlers_`; on a match promote when the index is ≥ 3 and call
the device `count` times, the buffer pointer advancing by `size` each
iteration; on a miss `memset` the first `size` bytes of the buffer to
`0xFF` and drop the access. -/
def HandleIo (table : List IoHandler) (port : Nat) (data : List Nat)
    (size : Nat) (isWrite : Bool) (count : Nat) : DispatchResult :=
  match scanHandlers port table with
  | some (i, h) =>
    { table := promote table i h
      data := data
      ops := (List.range count).map (fun k =>
        { isWrite := isWrite, device := h.device, base := h.resource.base,
          offset := port - h.resource.base, bufOffset := k * size, size := size }) }
  | none =>
    { table := table, data := memsetFF data size, ops := [] }

/-- `DeviceManager::HandleMmio(base, data, size, is_write, ioeventfd)`:
same scan and promotion over `mmio_handlers_`, a single device call on a
match, and a silent drop (no buffer fill) on a miss. -/
def HandleMmio (table : List IoHandler) (addr : Nat) (data : List Nat)
    (size : Nat) (isWrite : Bool) : DispatchResult :=
  match scanHandlers addr table with
  | some (i, h) =>
    { table := promote table i h
      data := data
      ops := [{ isWrite := isWrite, device := h.device, base := h.resource.base,
                offset := addr - h.resource.base, bufOffset := 0, size := size }] }
  | none =>
    { table := table, data := data, ops := [] }

/-! ## GSI routing mirror -/

/-- `kvm_irq_routing_entry.type`: `KVM_IRQ_ROUTING_IRQCHIP` or
`KVM_IRQ_ROUTING_MSI`. -/
inductive RouteType where
  | irqchip
  | msi
deriving DecidableEq, Repr

/-- The union `kvm_irq_routing_entry.u`: either an irqchip route
`(chip, pin)` or an MSI route `(address_lo, address_hi, data)`. -/
inductive GsiPayload where
  | irqchip (chip pin : Nat)
  | msi (addressLo addressHi data : Nat)
deriving DecidableEq, Repr

/-- One `kvm_irq_routing_entry` of the mirror `gsi_routing_table_`.
The `type` tag is a struct field separate from the union and is kept as
such (`UpdateMsiRoute` rewrites `u.msi` without touching `type`). -/
structure GsiEntry where
  gsi : Nat
  rtype : RouteType
  u : GsiPayload
deriving DecidableEq, Repr

/-- The mutable routing state of the manager: the mirror and the next
free GSI number. -/
structure GsiState where
  table : List GsiEntry
  nextGsi : Nat
deriving DecidableEq, Repr

/-- The `add_irq_routing` lambda of `SetupGsiRoutingTable`: append an
IRQCHIP entry. -/
def addIrqRouting (t : List GsiEntry) (gsi chip pin : Nat) : List GsiEntry :=
  t ++ [{ gsi := gsi, rtype := .irqchip, u := .irqchip chip pin }]

/-- `DeviceManager::SetupGsiRoutingTable`: 8259A master (gsi 0–7 except
2, chip 0, pin = gsi), 8259A slave (gsi 8–15, chip 1, pin = gsi − 8),
IOAPIC (gsi 0 to pin 2, then gsi 1,3–23 to pin = gsi, chip 2);
`next_gsi_ = 24`. -/
def setupGsiRoutingTable : GsiState :=
  let t := (List.range 8).foldl
    (fun t i => if i ≠ 2 then addIrqRouting t i 0 i else t) []
  let t := (List.range 8).foldl
    (fun t i => addIrqRouting t (8 + i) 1 i) t
  let t := (List.range 24).foldl
    (fun t i =>
      if i = 0 then addIrqRouting t i 2 2
      else if i ≠ 2 then addIrqRouting t i 2 i
      else t) t
  { table := t, nextGsi := 24 }

/-- The MSI routing entry built by `AddMsiRoute`: address split into
`address_lo`/`address_hi` as the source's `uint32_t` casts do. -/
def mkMsiEntry (gsi address data : Nat) : GsiEntry :=
  { gsi := gsi, rtype := .msi,
    u := .msi (address % 2 ^ 32) (address / 2 ^ 32 % 2 ^ 32) data }

/-- `DeviceManager::AddMsiRoute(address, data, trigger_fd)`: allocate
`gsi = next_gsi_++`, append the MSI entry, push the table and bind the
irqfd (kernel calls elided); returns the new state and the allocated
gsi.  `trigger_fd` only reaches the kernel and does not affect the
mirror. -/
def AddMsiRoute (s : GsiState) (address data : Nat) (triggerFd : Int) :
    GsiState × Nat :=
  ({ table := s.table ++ [mkMsiEntry s.nextGsi address data],
     nextGsi := s.nextGsi + 1 }, s.nextGsi)

/-- `DeviceManager::UpdateMsiRoute(gsi, address, data, trigger_fd)`:
find the first mirror entry with this `gsi`; a missing gsi is
`MV_PANIC` (fatal, modelled as `Except.error`); `address == 0` erases
the entry; otherwise `u.msi` is rewritten in place (the `type` tag and
`gsi` are untouched). -/
def UpdateMsiRoute (s : GsiState) (gsi address data : Nat) (triggerFd : Int) :
    Except String GsiState :=
  match s.table.findIdx? (fun e => e.gsi == gsi) with
  | none => .error "not found gsi"
  | some i =>
    if address = 0 then
      .ok { s with table := s.table.eraseIdx i }
    else
      .ok { s with table :=
        s.table.modify (fun e =>
          { e with u := .msi (address % 2 ^ 32) (address / 2 ^ 32 % 2 ^ 32) data }) i }

/-- One mirror mutation: the only operations that touch
`gsi_routing_table_` after setup. -/
inductive GsiOp where
  | add (address data : Nat) (fd : Int)
  | update (gsi address data : Nat) (fd : Int)

/-- Run one operation; `MV_PANIC` aborts the process, so on the error
outcome the state is frozen as it stood. -/
def execGsiOp (s : GsiState) : GsiOp → GsiState
  | .add a d fd => (AddMsiRoute s a d fd).1
  | .update g a d fd =>
    match UpdateMsiRoute s g a d fd with
    | .ok s' => s'
    | .error _ => s

/-- Run a sequence of mirror mutations. -/
def execGsiOps (s : GsiState) (ops : List GsiOp) : GsiState :=
  ops.foldl execGsiOp s

/-- The gsi numbers of the MSI-typed entries of a mirror. -/
def msiGsis (t : List GsiEntry) : List Nat :=
  (t.filter (fun e => e.rtype == RouteType.msi)).map GsiEntry.gsi

/-- Recognize an IRQCHIP entry routed to a given chip. -/
def isChipEntry (chip : Nat) (e : GsiEntry) : Bool :=
  e.rtype == RouteType.irqchip &&
  match e.u with
  | .irqchip c _ => c == chip
  | .msi _ _ _ => false

/-- The pin of an IRQCHIP entry (0 for MSI entries). -/
def pinOf (e : GsiEntry) : Nat :=
  match e.u with
  | .irqchip _ p => p
  | .msi _ _ _ => 0

/-! ## Io-event registry -/

/-- `IoEventType` from the source. -/
inductive IoEventType where
  | fd
  | pio
  | mmio
deriving DecidableEq, Repr

/-- An `IoEvent` record of `ioevents_`. -/
structure IoEvent where
  etype : IoEventType
  device : Nat
  address : Nat
  length : Nat
  datamatch : Nat
  flags : Nat
  fd : Int
deriving DecidableEq, Repr

/-- The full mutable state guarded by the manager's mutex, as far as the
claims observe it. -/
structure DmState where
  pioHandlers : List IoHandler
  mmioHandlers : List IoHandler
  ioevents : List IoEvent
  gsi : GsiState
deriving DecidableEq, Repr

/-- The predicate of the `find_if` in
`UnregisterIoEvent(device, type, address)`:
`e->device == device && e->address == address &&
((type == kIoResourceTypePio) == !!(e->flags & KVM_IOEVENTFD_FLAG_PIO))`;
`KVM_IOEVENTFD_FLAG_PIO` is bit 1 of the flags. -/
def ioeventMatches (device : Nat) (rtype : IoResourceType) (address : Nat)
    (e : IoEvent) : Bool :=
  e.device == device && e.address == address &&
  ((rtype == IoResourceType.pio) == e.flags.testBit 1)

/-- `DeviceManager::UnregisterIoEvent(IoEvent*)` restricted to its
effect on manager state: erase the event from `ioevents_` (polling stop,
kernel deassign and `delete` have no mirror-visible effect). -/
def UnregisterIoEventE (st : DmState) (e : IoEvent) : DmState :=
  { st with ioevents := st.ioevents.erase e }

/-- `DeviceManager::UnregisterIoEvent(device, type, address)`: find the
matching live event; when none matches, unlock and return with nothing
changed, otherwise unregister the found event. -/
def UnregisterIoEventByAddr (st : DmState) (device : Nat)
    (rtype : IoResourceType) (address : Nat) : DmState :=
  match st.ioevents.find? (ioeventMatches device rtype address) with
  | none => st
  | some e => UnregisterIoEventE st e

/-! ## Properties of the dispatch scan -/

theorem scanHandlers_eq_none {addr : Nat} {t : List IoHandler}
    (hm : ∀ h ∈ t, handlerMatch addr h = false) : scanHandlers addr t = none := by
  induction t with
  | nil => rfl
  | cons h t ih =>
    have hh := hm h (List.mem_cons_self _ _)
    show (if handlerMatch addr h then some (0, h)
      else (scanHandlers addr t).map (fun p => (p.1 + 1, p.2))) = none
    rw [if_neg (by simp [hh]), ih (fun g hg => hm g (List.mem_cons_of_mem _ hg))]
    rfl

theorem scanHandlers_cons {addr : Nat} {g : IoHandler} {t : List IoHandler} :
    scanHandlers addr (g :: t) =
      if handlerMatch addr g then some (0, g)
      else (scanHandlers addr t).map (fun p => (p.1 + 1, p.2)) := rfl

theorem scanHandlers_getElem {addr : Nat} {t : List IoHandler} {i : Nat}
    {h : IoHandler} (hs : scanHandlers addr t = some (i, h)) : t[i]? = some h := by
  induction t generalizing i with
  | nil => exact Option.noConfusion hs
  | cons g t ih =>
    rw [scanHandlers_cons] at hs
    by_cases hg : handlerMatch addr g = true
    · rw [if_pos hg] at hs
      simp only [Option.some.injEq, Prod.mk.injEq] at hs
      obtain ⟨rfl, rfl⟩ := hs
      simp
    · rw [if_neg hg] at hs
      obtain ⟨⟨j, g2⟩, hj, heq⟩ := Option.map_eq_some'.mp hs
      simp only [Prod.mk.injEq] at heq
      obtain ⟨rfl, rfl⟩ := heq
      simpa only [List.getElem?_cons_succ] using ih hj

theorem scanHandlers_match {addr : Nat} {t : List IoHandler} {i : Nat}
    {h : IoHandler} (hs : scanHandlers addr t = some (i, h)) :
    handlerMatch addr h = true := by
  induction t generalizing i with
  | nil => exact Option.noConfusion hs
  | cons g t ih =>
    rw [scanHandlers_cons] at hs
    by_cases hg : handlerMatch addr g = true
    · rw [if_pos hg] at hs
      simp only [Option.some.injEq, Prod.mk.injEq] at hs
      obtain ⟨rfl, rfl⟩ := hs
      exact hg
    · rw [if_neg hg] at hs
      obtain ⟨⟨j, g2⟩, hj, heq⟩ := Option.map_eq_some'.mp hs
      simp only [Prod.mk.injEq] at heq
      obtain ⟨rfl, rfl⟩ := heq
      exact ih hj

theorem scanHandlers_first {addr : Nat} {t : List IoHandler} {i : Nat}
    {h : IoHandler} (hs : scanHandlers addr t = some (i, h)) :
    ∀ j g, j < i → t[j]? = some g → handlerMatch addr g = false := by
  induction t generalizing i with
  | nil => exact Option.noConfusion hs
  | cons g t ih =>
    rw [scanHandlers_cons] at hs
    by_cases hg : handlerMatch addr g = true
    · rw [if_pos hg] at hs
      simp only [Option.some.injEq, Prod.mk.injEq] at hs
      obtain ⟨rfl, rfl⟩ := hs
      intro j g2 hj _
      exact absurd hj (Nat.not_lt_zero j)
    · rw [if_neg hg] at hs
      obtain ⟨⟨k, g2⟩, hk, heq⟩ := Option.map_eq_some'.mp hs
      simp only [Prod.mk.injEq] at heq
      obtain ⟨rfl, rfl⟩ := heq
      intro j g3 hj hget
      cases j with
      | zero =>
        simp only [List.getElem?_cons_zero, Option.some.injEq] at hget
        subst hget
        simp only [Bool.not_eq_true] at hg
        exact hg
      | succ j =>
        simp only [List.getElem?_cons_succ] at hget
        exact ih hk j g3 (by omega) hget

theorem mem_of_getElem? {α : Type} {l : List α} {i : Nat} {a : α}
    (h : l[i]? = some a) : a ∈ l := by
  obtain ⟨hi, rfl⟩ := List.getElem?_eq_some_iff.mp h
  exact List.getElem_mem hi

theorem perm_cons_eraseIdx {α : Type} {t : List α} {i : Nat} {h : α}
    (hget : t[i]? = some h) : (h :: t.eraseIdx i).Perm t := by
  induction t generalizing i with
  | nil => exact Option.noConfusion hget
  | cons x xs ih =>
    cases i with
    | zero =>
      simp only [List.getElem?_cons_zero, Option.some.injEq] at hget
      subst hget
      simp
    | succ i =>
      simp only [List.getElem?_cons_succ] at hget
      rw [List.eraseIdx_cons_succ]
      exact (List.Perm.swap x h _).trans ((ih hget).cons x)

theorem promote_perm {t : List IoHandler} {i : Nat} {h : IoHandler}
    (hget : t[i]? = some h) : (promote t i h).Perm t := by
  unfold promote
  split
  · exact perm_cons_eraseIdx hget
  · exact List.Perm.refl t

/-- The in-range test with uint64 wrap spelled out, for resources whose
range fits the address space. -/
theorem handlerMatch_of_range {addr : Nat} {h : IoHandler}
    (hfit : h.resource.base + h.resource.length < 2 ^ 64) :
    handlerMatch addr h = true ↔
      h.resource.base ≤ addr ∧ addr < h.resource.base + h.resource.length := by
  have hmod : (h.resource.base + h.resource.length) % 2 ^ 64 =
      h.resource.base + h.resource.length := Nat.mod_eq_of_lt hfit
  simp only [handlerMatch, Bool.and_eq_true, decide_eq_true_eq, hmod]

/-- An address outside `[base, base+length)` (in exact arithmetic) never
passes the dispatch range test, wrap or no wrap. -/
theorem handlerMatch_eq_false_of_outside {addr : Nat} {h : IoHandler}
    (hout : ¬(h.resource.base ≤ addr ∧ addr < h.resource.base + h.resource.length)) :
    handlerMatch addr h = false := by
  have hmod : (h.resource.base + h.resource.length) % 2 ^ 64 ≤
      h.resource.base + h.resource.length := Nat.mod_le _ _
  push_neg at hout
  simp only [handlerMatch, Bool.and_eq_false_iff, decide_eq_false_iff_not, not_le, not_lt]
  omega

/-- C1: a `HandleIo` or `HandleMmio` whose scan matches at index ≥ 3
leaves the matched handler at position 0 of its table, and the table is
a permutation of (so contains exactly the same handlers as) the old
one. -/
theorem C1_move_to_front (t : List IoHandler) (addr : Nat) (i : Nat)
    (hdl : IoHandler) (data : List Nat) (size count : Nat) (w : Bool)
    (hscan : scanHandlers addr t = some (i, hdl)) (h3 : 3 ≤ i) :
    ((HandleIo t addr data size w count).table.head? = some hdl ∧
      (HandleIo t addr data size w count).table.Perm t) ∧
    ((HandleMmio t addr data size w).table.head? = some hdl ∧
      (HandleMmio t addr data size w).table.Perm t) := by
  have hget := scanHandlers_getElem hscan
  have htab1 : (HandleIo t addr data size w count).table = promote t i hdl := by
    simp [HandleIo, hscan]
  have htab2 : (HandleMmio t addr data size w).table = promote t i hdl := by
    simp [HandleMmio, hscan]
  have hpr : promote t i hdl = hdl :: t.eraseIdx i := if_pos h3
  refine ⟨⟨?_, ?_⟩, ?_, ?_⟩
  · rw [htab1, hpr]; rfl
  · rw [htab1]; exact promote_perm hget
  · rw [htab2, hpr]; rfl
  · rw [htab2]; exact promote_perm hget

/-- A four-entry PIO/MMIO table whose last handler owns `[48, 56)`. -/
def c1Table : List IoHandler :=
  [⟨⟨.pio, 0, 8⟩, 10⟩, ⟨⟨.pio, 16, 8⟩, 11⟩, ⟨⟨.pio, 32, 8⟩, 12⟩, ⟨⟨.pio, 48, 8⟩, 13⟩]

theorem C1_move_to_front_witness :
    scanHandlers 48 c1Table = some (3, ⟨⟨.pio, 48, 8⟩, 13⟩) ∧ 3 ≤ 3 ∧
    (((HandleIo c1Table 48 [0] 1 true 1).table.head? = some ⟨⟨.pio, 48, 8⟩, 13⟩ ∧
       (HandleIo c1Table 48 [0] 1 true 1).table.Perm c1Table) ∧
     ((HandleMmio c1Table 48 [0] 1 true).table.head? = some ⟨⟨.pio, 48, 8⟩, 13⟩ ∧
       (HandleMmio c1Table 48 [0] 1 true).table.Perm c1Table)) :=
  ⟨by decide, by decide,
    C1_move_to_front c1Table 48 3 ⟨⟨.pio, 48, 8⟩, 13⟩ [0] 1 1 true (by decide) (by decide)⟩

/-- C3: a PIO access no handler range contains reaches no device,
changes no handler-table entry, and leaves the first `size` bytes of
the buffer as `0xFF` and the rest as they were. -/
theorem C3_unhandled_pio (t : List IoHandler) (port : Nat) (data : List Nat)
    (size : Nat) (w : Bool) (count : Nat)
    (hout : ∀ g ∈ t, ¬(g.resource.base ≤ port ∧ port < g.resource.base + g.resource.length))
    (hsz : size ≤ data.length) :
    (HandleIo t port data size w count).ops = [] ∧
    (HandleIo t port data size w count).table = t ∧
    (HandleIo t port data size w count).data =
      List.replicate size 0xFF ++ data.drop size := by
  have hnone : scanHandlers port t = none :=
    scanHandlers_eq_none (fun g hg => handlerMatch_eq_false_of_outside (hout g hg))
  refine ⟨by simp [HandleIo, hnone], by simp [HandleIo, hnone], ?_⟩
  simp only [HandleIo, hnone]
  show (data.take size).map (fun _ => 0xFF) ++ data.drop size = _
  rw [List.map_const', List.length_take, min_eq_left hsz]

theorem C3_unhandled_pio_witness :
    (∀ g ∈ ([] : List IoHandler),
      ¬(g.resource.base ≤ 0x378 ∧ 0x378 < g.resource.base + g.resource.length)) ∧
    4 ≤ ([0, 0, 0, 0] : List Nat).length ∧
    ((HandleIo [] 0x378 [0, 0, 0, 0] 4 false 1).ops = [] ∧
     (HandleIo [] 0x378 [0, 0, 0, 0] 4 false 1).table = [] ∧
     (HandleIo [] 0x378 [0, 0, 0, 0] 4 false 1).data =
       List.replicate 4 0xFF ++ ([0, 0, 0, 0] : List Nat).drop 4) :=
  ⟨by simp, by decide,
    C3_unhandled_pio [] 0x378 [0, 0, 0, 0] 4 false 1 (by simp) (by decide)⟩

/-- C4: a matched `HandleIo` drives the owning device exactly `count`
times, each with offset `port - resource.base` and the buffer pointer
advanced by `size` per iteration; with `count = 0` no device runs and
the buffer is untouched. -/
theorem C4_pio_string_ops (t : List IoHandler) (port : Nat) (data : List Nat)
    (size : Nat) (w : Bool) (count : Nat) (i : Nat) (hdl : IoHandler)
    (hscan : scanHandlers port t = some (i, hdl)) :
    (HandleIo t port data size w count).ops.length = count ∧
    (∀ k, k < count →
      (HandleIo t port data size w count).ops[k]? =
        some ⟨w, hdl.device, hdl.resource.base, port - hdl.resource.base, k * size, size⟩) ∧
    (HandleIo t port data size w 0).ops = [] ∧
    (HandleIo t port data size w 0).data = data := by
  have hops : (HandleIo t port data size w count).ops =
      (List.range count).map (fun k => (⟨w, hdl.device, hdl.resource.base,
        port - hdl.resource.base, k * size, size⟩ : DeviceOp)) := by
    simp [HandleIo, hscan]
  refine ⟨?_, ?_, by simp [HandleIo, hscan], by simp [HandleIo, hscan]⟩
  · rw [hops]; simp
  · intro k hk
    rw [hops]
    simp [List.getElem?_map, List.getElem?_range hk]

theorem C4_pio_string_ops_witness :
    scanHandlers 0x60 [⟨⟨.pio, 0x60, 4⟩, 5⟩] = some (0, ⟨⟨.pio, 0x60, 4⟩, 5⟩) ∧
    ((HandleIo [⟨⟨.pio, 0x60, 4⟩, 5⟩] 0x60 [0xFE] 1 true 1).ops.length = 1 ∧
     (∀ k, k < 1 →
       (HandleIo [⟨⟨.pio, 0x60, 4⟩, 5⟩] 0x60 [0xFE] 1 true 1).ops[k]? =
         some ⟨true, 5, 0x60, 0x60 - 0x60, k * 1, 1⟩) ∧
     (HandleIo [⟨⟨.pio, 0x60, 4⟩, 5⟩] 0x60 [0xFE] 1 true 0).ops = [] ∧
     (HandleIo [⟨⟨.pio, 0x60, 4⟩, 5⟩] 0x60 [0xFE] 1 true 0).data = [0xFE]) :=
  ⟨by decide,
    C4_pio_string_ops [⟨⟨.pio, 0x60, 4⟩, 5⟩] 0x60 [0xFE] 1 true 1 0
      ⟨⟨.pio, 0x60, 4⟩, 5⟩ (by decide)⟩

/-- C9: the unhandled-PIO fill touches exactly the first `size` bytes of
the buffer, whatever `count` was; everything from index `size` on is
unchanged. -/
theorem C9_unhandled_fill_exact (t : List IoHandler) (port : Nat) (data : List Nat)
    (size : Nat) (w : Bool) (count : Nat)
    (hnone : scanHandlers port t = none) (hsz : size ≤ data.length) :
    (HandleIo t port data size w count).data.take size = List.replicate size 0xFF ∧
    (HandleIo t port data size w count).data.drop size = data.drop size ∧
    (HandleIo t port data size w count).data.length = data.length := by
  simp only [HandleIo, hnone]
  have hrep : (data.take size).map (fun _ => (0xFF : Nat)) = List.replicate size 0xFF := by
    rw [List.map_const', List.length_take, min_eq_left hsz]
  show (memsetFF data size).take size = _ ∧ (memsetFF data size).drop size = _ ∧
    (memsetFF data size).length = _
  unfold memsetFF
  rw [hrep]
  refine ⟨?_, ?_, ?_⟩
  · have := List.take_left (List.replicate size (0xFF : Nat)) (data.drop size)
    rwa [List.length_replicate] at this
  · have := List.drop_left (List.replicate size (0xFF : Nat)) (data.drop size)
    rwa [List.length_replicate] at this
  · simp only [List.length_append, List.length_replicate, List.length_drop]
    omega

theorem C9_unhandled_fill_exact_witness :
    scanHandlers 0x80 [⟨⟨.pio, 0, 8⟩, 1⟩] = none ∧
    2 ≤ ([7, 7, 7, 7] : List Nat).length ∧
    ((HandleIo [⟨⟨.pio, 0, 8⟩, 1⟩] 0x80 [7, 7, 7, 7] 2 false 2).data.take 2 =
       List.replicate 2 0xFF ∧
     (HandleIo [⟨⟨.pio, 0, 8⟩, 1⟩] 0x80 [7, 7, 7, 7] 2 false 2).data.drop 2 =
       ([7, 7, 7, 7] : List Nat).drop 2 ∧
     (HandleIo [⟨⟨.pio, 0, 8⟩, 1⟩] 0x80 [7, 7, 7, 7] 2 false 2).data.length =
       ([7, 7, 7, 7] : List Nat).length) :=
  ⟨by decide, by decide,
    C9_unhandled_fill_exact [⟨⟨.pio, 0, 8⟩, 1⟩] 0x80 [7, 7, 7, 7] 2 false 2
      (by decide) (by decide)⟩

/-- C7: the MMIO lookup selects the first handler in table order whose
range contains the address and calls its device with offset
`address - base`; an access at `base + length - 1` passes the range
test of a handler with that base and length while `base + length` does
not. -/
theorem C7_mmio_lookup (t : List IoHandler) (addr : Nat) (data : List Nat)
    (size : Nat) (w : Bool) (i : Nat) (hdl : IoHandler)
    (hfit : ∀ g ∈ t, g.resource.base + g.resource.length < 2 ^ 64)
    (hscan : scanHandlers addr t = some (i, hdl)) :
    (t[i]? = some hdl ∧
     (hdl.resource.base ≤ addr ∧ addr < hdl.resource.base + hdl.resource.length) ∧
     (∀ j g, j < i → t[j]? = some g →
       ¬(g.resource.base ≤ addr ∧ addr < g.resource.base + g.resource.length)) ∧
     (HandleMmio t addr data size w).ops =
       [⟨w, hdl.device, hdl.resource.base, addr - hdl.resource.base, 0, size⟩]) ∧
    (∀ base len : Nat, 0 < len → base + len < 2 ^ 64 →
      handlerMatch (base + len - 1) ⟨⟨.mmio, base, len⟩, 0⟩ = true ∧
      handlerMatch (base + len) ⟨⟨.mmio, base, len⟩, 0⟩ = false) := by
  constructor
  · have hget := scanHandlers_getElem hscan
    have hmem : hdl ∈ t := mem_of_getElem? hget
    have hrange := (handlerMatch_of_range (hfit hdl hmem)).mp (scanHandlers_match hscan)
    refine ⟨hget, hrange, ?_, by simp [HandleMmio, hscan]⟩
    intro j g hj hgetj hr
    have hgm : g ∈ t := mem_of_getElem? hgetj
    have htrue := (handlerMatch_of_range (hfit g hgm)).mpr hr
    rw [scanHandlers_first hscan j g hj hgetj] at htrue
    exact Bool.noConfusion htrue
  · intro base len hlen hfit2
    constructor
    · simp only [handlerMatch, Bool.and_eq_true, decide_eq_true_eq]
      rw [Nat.mod_eq_of_lt hfit2]
      omega
    · simp only [handlerMatch, Bool.and_eq_false_iff, decide_eq_false_iff_not, not_le, not_lt]
      rw [Nat.mod_eq_of_lt hfit2]
      omega

theorem C7_mmio_lookup_witness :
    (∀ g ∈ [(⟨⟨.mmio, 0x1000, 0x100⟩, 7⟩ : IoHandler)],
      g.resource.base + g.resource.length < 2 ^ 64) ∧
    scanHandlers 0x10FF [⟨⟨.mmio, 0x1000, 0x100⟩, 7⟩] =
      some (0, ⟨⟨.mmio, 0x1000, 0x100⟩, 7⟩) ∧
    (([(⟨⟨.mmio, 0x1000, 0x100⟩, 7⟩ : IoHandler)][0]? =
        some ⟨⟨.mmio, 0x1000, 0x100⟩, 7⟩ ∧
      ((0x1000 : Nat) ≤ 0x10FF ∧ (0x10FF : Nat) < 0x1000 + 0x100) ∧
      (∀ j g, j < 0 → [(⟨⟨.mmio, 0x1000, 0x100⟩, 7⟩ : IoHandler)][j]? = some g →
        ¬(g.resource.base ≤ 0x10FF ∧ 0x10FF < g.resource.base + g.resource.length)) ∧
      (HandleMmio [⟨⟨.mmio, 0x1000, 0x100⟩, 7⟩] 0x10FF [0] 1 false).ops =
        [⟨false, 7, 0x1000, 0x10FF - 0x1000, 0, 1⟩]) ∧
     (∀ base len : Nat, 0 < len → base + len < 2 ^ 64 →
       handlerMatch (base + len - 1) ⟨⟨.mmio, base, len⟩, 0⟩ = true ∧
       handlerMatch (base + len) ⟨⟨.mmio, base, len⟩, 0⟩ = false)) :=
  ⟨by decide, by decide,
    C7_mmio_lookup [⟨⟨.mmio, 0x1000, 0x100⟩, 7⟩] 0x10FF [0] 1 false 0
      ⟨⟨.mmio, 0x1000, 0x100⟩, 7⟩ (by decide) (by decide)⟩

/-! ## The initial GSI routing table -/

/-- C2: after `SetupGsiRoutingTable` the mirror holds exactly 38
IRQCHIP entries: 7 chip-0 entries at gsi 0,1,3–7 with pin = gsi, 8
chip-1 entries at gsi 8–15 with pin = gsi − 8, 23 chip-2 entries (gsi 0
at pin 2, gsi 1,3–23 at pin = gsi), nothing else; and `next_gsi` is
24. -/
theorem C2_setup_gsi_table :
    setupGsiRoutingTable.nextGsi = 24 ∧
    setupGsiRoutingTable.table.length = 38 ∧
    (setupGsiRoutingTable.table.filter (isChipEntry 0)).map
        (fun e => (e.gsi, pinOf e)) =
      [(0, 0), (1, 1), (3, 3), (4, 4), (5, 5), (6, 6), (7, 7)] ∧
    (setupGsiRoutingTable.table.filter (isChipEntry 1)).map
        (fun e => (e.gsi, pinOf e)) =
      [(8, 0), (9, 1), (10, 2), (11, 3), (12, 4), (13, 5), (14, 6), (15, 7)] ∧
    (setupGsiRoutingTable.table.filter (isChipEntry 2)).map
        (fun e => (e.gsi, pinOf e)) =
      [(0, 2), (1, 1), (3, 3), (4, 4), (5, 5), (6, 6), (7, 7), (8, 8), (9, 9),
       (10, 10), (11, 11), (12, 12), (13, 13), (14, 14), (15, 15), (16, 16),
       (17, 17), (18, 18), (19, 19), (20, 20), (21, 21), (22, 22), (23, 23)] ∧
    setupGsiRoutingTable.table.all
      (fun e => isChipEntry 0 e || isChipEntry 1 e || isChipEntry 2 e) := by
  decide

/-! ## Mirror invariants -/

theorem findIdx?_eq_none_aux {α : Type} {p : α → Bool} {l : List α}
    (h : ∀ x ∈ l, p x = false) : ∀ s, List.findIdx? p l s = none := by
  induction l with
  | nil => intro s; rfl
  | cons x xs ih =>
    intro s
    rw [List.findIdx?_cons, if_neg (by simp [h x (List.mem_cons_self _ _)])]
    exact ih (fun y hy => h y (List.mem_cons_of_mem _ hy)) (s + 1)

theorem findIdx?_concat_aux {α : Type} {p : α → Bool} {l : List α} {x : α}
    (hl : ∀ y ∈ l, p y = false) (hx : p x = true) :
    ∀ s, List.findIdx? p (l ++ [x]) s = some (s + l.length) := by
  induction l with
  | nil => intro s; simp [List.findIdx?_cons, hx]
  | cons y ys ih =>
    intro s
    rw [List.cons_append, List.findIdx?_cons,
      if_neg (by simp [hl y (List.mem_cons_self _ _)])]
    rw [ih (fun z hz => hl z (List.mem_cons_of_mem _ hz)) (s + 1)]
    congr 1
    simp only [List.length_cons]
    omega

theorem eraseIdx_concat {α : Type} (l : List α) (x : α) :
    (l ++ [x]).eraseIdx l.length = l := by
  induction l with
  | nil => rfl
  | cons y ys ih =>
    simpa only [List.cons_append, List.length_cons, List.eraseIdx_cons_succ]
      using congrArg (y :: ·) ih

theorem msiGsis_cons (e : GsiEntry) (t : List GsiEntry) :
    msiGsis (e :: t) =
      if e.rtype == RouteType.msi then e.gsi :: msiGsis t else msiGsis t := by
  simp only [msiGsis, List.filter_cons]
  by_cases h : (e.rtype == RouteType.msi) = true
  · rw [if_pos h, if_pos h]; rfl
  · rw [if_neg h, if_neg h]

theorem msiGsis_append (t1 t2 : List GsiEntry) :
    msiGsis (t1 ++ t2) = msiGsis t1 ++ msiGsis t2 := by
  simp [msiGsis, List.filter_append]

theorem mem_msiGsis {t : List GsiEntry} {g : Nat} (h : g ∈ msiGsis t) :
    ∃ e ∈ t, e.gsi = g := by
  obtain ⟨e, he, rfl⟩ := List.mem_map.mp h
  exact ⟨e, (List.mem_filter.mp he).1, rfl⟩

theorem msiGsis_modify (f : GsiEntry → GsiEntry)
    (hf : ∀ e, (f e).gsi = e.gsi ∧ (f e).rtype = e.rtype) :
    ∀ (t : List GsiEntry) (i : Nat), msiGsis (t.modify f i) = msiGsis t := by
  intro t
  induction t with
  | nil => intro i; simp
  | cons x xs ih =>
    intro i
    cases i with
    | zero =>
      rw [show (x :: xs).modify f 0 = f x :: xs by simp,
        msiGsis_cons, msiGsis_cons, (hf x).1, (hf x).2]
    | succ i =>
      rw [show (x :: xs).modify f (i + 1) = x :: xs.modify f i by simp,
        msiGsis_cons, msiGsis_cons, ih i]

theorem gsis_modify (f : GsiEntry → GsiEntry) (hf : ∀ e, (f e).gsi = e.gsi) :
    ∀ (t : List GsiEntry) (i : Nat),
      (t.modify f i).map GsiEntry.gsi = t.map GsiEntry.gsi := by
  intro t
  induction t with
  | nil => intro i; simp
  | cons x xs ih =>
    intro i
    cases i with
    | zero => rw [show (x :: xs).modify f 0 = f x :: xs by simp]; simp [hf x]
    | succ i => rw [show (x :: xs).modify f (i + 1) = x :: xs.modify f i by simp]; simp [ih i]

/-- The reachability invariant of the mirror: every entry's gsi is
below `next_gsi`, and the MSI-typed entries carry pairwise distinct
gsis. -/
def GsiInv (s : GsiState) : Prop :=
  (∀ e ∈ s.table, e.gsi < s.nextGsi) ∧ (msiGsis s.table).Nodup

theorem gsiInv_setup : GsiInv setupGsiRoutingTable := by
  constructor
  · decide
  · decide

theorem gsiInv_add {s : GsiState} (hs : GsiInv s) (a d : Nat) (fd : Int) :
    GsiInv (AddMsiRoute s a d fd).1 := by
  obtain ⟨hb, hn⟩ := hs
  constructor
  · intro e he
    rcases List.mem_append.mp he with h1 | h1
    · exact Nat.lt_succ_of_lt (hb e h1)
    · simp only [List.mem_singleton] at h1
      subst h1
      simp [mkMsiEntry, AddMsiRoute]
  · show (msiGsis (s.table ++ [mkMsiEntry s.nextGsi a d])).Nodup
    rw [msiGsis_append]
    have hsingle : msiGsis [mkMsiEntry s.nextGsi a d] = [s.nextGsi] := by
      simp [msiGsis, mkMsiEntry, List.filter_cons]
    rw [hsingle]
    refine List.Nodup.append hn (List.nodup_singleton _) ?_
    intro x hx hx2
    simp only [List.mem_singleton] at hx2
    subst hx2
    obtain ⟨e, he, heq⟩ := mem_msiGsis hx
    exact absurd (heq ▸ hb e he) (lt_irrefl _)

theorem gsiInv_update {s s2 : GsiState} (hs : GsiInv s) {g a d : Nat} {fd : Int}
    (h : UpdateMsiRoute s g a d fd = .ok s2) : GsiInv s2 := by
  obtain ⟨hb, hn⟩ := hs
  unfold UpdateMsiRoute at h
  split at h
  · exact Except.noConfusion h
  · rename_i i _
    split at h
    · injection h with h
      subst h
      constructor
      · intro e he
        exact hb e ((List.eraseIdx_sublist s.table i).subset he)
      · exact hn.sublist (((List.eraseIdx_sublist s.table i).filter _).map _)
    · injection h with h
      subst h
      constructor
      · intro e he
        have hmem : e.gsi ∈ ((s.table.modify
            (fun e => { e with u := .msi (a % 2 ^ 32) (a / 2 ^ 32 % 2 ^ 32) d }) i).map
              GsiEntry.gsi) := List.mem_map_of_mem _ he
        rw [gsis_modify
          (fun e => { e with u := .msi (a % 2 ^ 32) (a / 2 ^ 32 % 2 ^ 32) d })
          (fun _ => rfl)] at hmem
        obtain ⟨e2, he2, heq⟩ := List.mem_map.mp hmem
        exact heq ▸ hb e2 he2
      · show (msiGsis (s.table.modify
            (fun e => { e with u := .msi (a % 2 ^ 32) (a / 2 ^ 32 % 2 ^ 32) d }) i)).Nodup
        rw [msiGsis_modify
          (fun e => { e with u := .msi (a % 2 ^ 32) (a / 2 ^ 32 % 2 ^ 32) d })
          (fun _ => ⟨rfl, rfl⟩)]
        exact hn

theorem execGsiOp_eq_of_ok {s s2 : GsiState} {g a d : Nat} {fd : Int}
    (h : UpdateMsiRoute s g a d fd = .ok s2) :
    execGsiOp s (GsiOp.update g a d fd) = s2 := by
  simp [execGsiOp, h]

theorem execGsiOp_eq_of_error {s : GsiState} {g a d : Nat} {fd : Int} {msg : String}
    (h : UpdateMsiRoute s g a d fd = .error msg) :
    execGsiOp s (GsiOp.update g a d fd) = s := by
  simp [execGsiOp, h]

theorem gsiInv_execOp {s : GsiState} (hs : GsiInv s) (op : GsiOp) :
    GsiInv (execGsiOp s op) := by
  cases op with
  | add a d fd => exact gsiInv_add hs a d fd
  | update g a d fd =>
    cases hres : UpdateMsiRoute s g a d fd with
    | error msg => rw [execGsiOp_eq_of_error hres]; exact hs
    | ok s2 => rw [execGsiOp_eq_of_ok hres]; exact gsiInv_update hs hres

theorem gsiInv_foldl {s : GsiState} (hs : GsiInv s) (ops : List GsiOp) :
    GsiInv (execGsiOps s ops) := by
  induction ops generalizing s with
  | nil => exact hs
  | cons op ops ih => exact ih (gsiInv_execOp hs op)

theorem gsiInv_reachable (ops : List GsiOp) :
    GsiInv (execGsiOps setupGsiRoutingTable ops) :=
  gsiInv_foldl gsiInv_setup ops

theorem execGsiOp_update_nextGsi (s : GsiState) (g a d : Nat) (fd : Int) :
    (execGsiOp s (GsiOp.update g a d fd)).nextGsi = s.nextGsi := by
  cases hres : UpdateMsiRoute s g a d fd with
  | error msg => rw [execGsiOp_eq_of_error hres]
  | ok s2 =>
    rw [execGsiOp_eq_of_ok hres]
    unfold UpdateMsiRoute at hres
    split at hres
    · exact Except.noConfusion hres
    · split at hres <;> (injection hres with hres; rw [← hres])

/-- C5 (amended): `AddMsiRoute` returns the prior `next_gsi`,
increments it by one and appends the MSI entry carrying that gsi and
the given address/data; across any operation sequence from setup,
`next_gsi` grows strictly on each add and never changes on an update,
and no two MSI-typed entries of the mirror share a gsi.  (The IRQCHIP
entries installed at setup do share gsis — see the counterexample — so
uniqueness over all live entries fails.) -/
theorem C5_msi_route_invariants (ops : List GsiOp) (a d : Nat) (fd : Int) :
    (AddMsiRoute (execGsiOps setupGsiRoutingTable ops) a d fd).2 =
      (execGsiOps setupGsiRoutingTable ops).nextGsi ∧
    (AddMsiRoute (execGsiOps setupGsiRoutingTable ops) a d fd).1.nextGsi =
      (execGsiOps setupGsiRoutingTable ops).nextGsi + 1 ∧
    (AddMsiRoute (execGsiOps setupGsiRoutingTable ops) a d fd).1.table =
      (execGsiOps setupGsiRoutingTable ops).table ++
        [mkMsiEntry (execGsiOps setupGsiRoutingTable ops).nextGsi a d] ∧
    (∀ g a2 d2 fd2,
      (execGsiOp (execGsiOps setupGsiRoutingTable ops)
          (GsiOp.update g a2 d2 fd2)).nextGsi =
        (execGsiOps setupGsiRoutingTable ops).nextGsi) ∧
    (msiGsis (execGsiOps setupGsiRoutingTable ops).table).Nodup := by
  refine ⟨rfl, rfl, rfl, ?_, (gsiInv_reachable ops).2⟩
  intro g a2 d2 fd2
  exact execGsiOp_update_nextGsi _ g a2 d2 fd2

/-- C5 counterexample: already after setup (the empty operation
sequence) two live mirror entries share gsi 0 — the master-PIC route
and the IOAPIC pin-2 alias — so "no two live entries share the same
gsi" is false as stated. -/
theorem C5_counterexample_dup_gsi :
    ((execGsiOps setupGsiRoutingTable []).table.map GsiEntry.gsi).count 0 = 2 := by
  decide

theorem updateMsiRoute_remove_concat {t : List GsiEntry} {g : Nat} {n : Nat}
    (e : GsiEntry) (hfalse : ∀ x ∈ t, (x.gsi == g) = false) (hx : e.gsi = g)
    (fd : Int) :
    UpdateMsiRoute ⟨t ++ [e], n⟩ g 0 0 fd = Except.ok ⟨t, n⟩ := by
  unfold UpdateMsiRoute
  have hfind : (t ++ [e]).findIdx? (fun x => x.gsi == g) = some t.length := by
    simpa using findIdx?_concat_aux hfalse (by simp [hx]) 0
  rw [hfind]
  show Except.ok (⟨(t ++ [e]).eraseIdx t.length, n⟩ : GsiState) = _
  rw [eraseIdx_concat]

/-- C6: from any reachable mirror state, `AddMsiRoute` followed by
`UpdateMsiRoute(gsi, 0, 0, fd)` on the returned gsi removes exactly the
added entry: the mirror returns to its pre-Add contents (hence its
pre-Add size), while the add had grown it by one entry. -/
theorem C6_add_then_remove (ops : List GsiOp) (a d : Nat) (fd fd2 : Int) :
    UpdateMsiRoute (AddMsiRoute (execGsiOps setupGsiRoutingTable ops) a d fd).1
        (AddMsiRoute (execGsiOps setupGsiRoutingTable ops) a d fd).2 0 0 fd2 =
      Except.ok ⟨(execGsiOps setupGsiRoutingTable ops).table,
        (execGsiOps setupGsiRoutingTable ops).nextGsi + 1⟩ ∧
    (AddMsiRoute (execGsiOps setupGsiRoutingTable ops) a d fd).1.table.length =
      (execGsiOps setupGsiRoutingTable ops).table.length + 1 := by
  obtain ⟨hb, -⟩ := gsiInv_reachable ops
  have hfalse : ∀ e ∈ (execGsiOps setupGsiRoutingTable ops).table,
      (e.gsi == (execGsiOps setupGsiRoutingTable ops).nextGsi) = false := by
    intro e he
    exact beq_eq_false_iff_ne.mpr (Nat.ne_of_lt (hb e he))
  refine ⟨?_, by simp [AddMsiRoute]⟩
  exact updateMsiRoute_remove_concat _ hfalse rfl fd2

/-- C8: `UpdateMsiRoute` on a gsi absent from the mirror hits the
`MV_PANIC` path (fatal): the call yields the error outcome and no
updated mirror at all. -/
theorem C8_update_missing_gsi_fatal (s : GsiState) (g a d : Nat) (fd : Int)
    (hmiss : ∀ e ∈ s.table, e.gsi ≠ g) :
    UpdateMsiRoute s g a d fd = Except.error "not found gsi" := by
  unfold UpdateMsiRoute
  rw [findIdx?_eq_none_aux (fun e he => beq_eq_false_iff_ne.mpr (hmiss e he)) 0]

theorem C8_update_missing_gsi_fatal_witness :
    (∀ e ∈ setupGsiRoutingTable.table, e.gsi ≠ 24) ∧
    UpdateMsiRoute setupGsiRoutingTable 24 0xFEE00000 0x4041 (-1) =
      Except.error "not found gsi" :=
  ⟨by decide,
    C8_update_missing_gsi_fatal setupGsiRoutingTable 24 0xFEE00000 0x4041 (-1)
      (by decide)⟩

/-- C10: `UnregisterIoEvent(device, type, address)` with no matching
live event returns with the whole manager state — ioevents, both
handler tables and the GSI mirror — untouched. -/
theorem C10_unregister_missing_event_noop (st : DmState) (device : Nat)
    (rtype : IoResourceType) (address : Nat)
    (hmiss : ∀ e ∈ st.ioevents, ioeventMatches device rtype address e = false) :
    UnregisterIoEventByAddr st device rtype address = st := by
  unfold UnregisterIoEventByAddr
  rw [List.find?_eq_none.mpr (fun e he => by simp [hmiss e he])]

/-- A live MMIO data-match event (flags bit 1 clear) owned by device 3
at `0xC000`. -/
def c10Event : IoEvent := ⟨.mmio, 3, 0xC000, 2, 1, 1, 9⟩

theorem C10_unregister_missing_event_noop_witness :
    (∀ e ∈ (⟨[], [], [c10Event], setupGsiRoutingTable⟩ : DmState).ioevents,
      ioeventMatches 3 IoResourceType.pio 0xC000 e = false) ∧
    UnregisterIoEventByAddr ⟨[], [], [c10Event], setupGsiRoutingTable⟩
        3 IoResourceType.pio 0xC000 =
      ⟨[], [], [c10Event], setupGsiRoutingTable⟩ :=
  ⟨by decide,
    C10_unregister_missing_event_noop ⟨[], [], [c10Event], setupGsiRoutingTable⟩
      3 IoResourceType.pio 0xC000 (by decide)⟩

end Mvisor
